import Mathlib

/-!
Verification development for the learning-webapp repository.

The repository ships two server variants:
* a file-backed Node server (`src/unnamed/part_000`) persisting users and
  courses as JSON arrays in `data/users.json` and `data/courses.json`;
* a PostgreSQL-backed Express server (`src/server_pg.js`).

Below, each HTTP handler is embedded as a pure Lean function on an explicit
store (the parsed contents of the JSON files, resp. the database tables).
Each request begins with a fresh read of the store and ends with at most one
whole-store write, so a handler is faithfully a function
`store → request → response × store (× write effects)`.
JavaScript numbers appearing as ids and progress values are modelled as `Int`;
request-body fields are modelled as `Option` values (`none` = the field is
absent, i.e. `undefined` after destructuring).  The JavaScript falsiness test
`!s` on a destructured string field is `none` or the empty string.
-/

namespace LearningWebapp

/-- A per-user course progress record, `{ id, progress }` in `users.json`. -/
structure ProgressRecord where
  id : Int
  progress : Int
deriving DecidableEq, Repr

/-- A stored user of the file-backed variant
(`{id, name, email, password, courses, profilePicture}` in `users.json`). -/
structure User where
  id : Int
  name : String
  email : String
  password : String
  courses : List ProgressRecord
  profilePicture : Option String
deriving DecidableEq, Repr

/-- A stored course of the file-backed variant (`courses.json`). -/
structure Course where
  id : Int
  title : String
  description : String
  content : String
deriving DecidableEq, Repr

/-- JS falsiness of a destructured string-valued body field:
`undefined` (absent) or the empty string. -/
def strFalsy : Option String → Bool
  | none => true
  | some s => s == ""

/-- `String.prototype.toLowerCase` on one character (the ASCII range, which
is all the email comparisons of this app exercise). -/
def jsLowerChar (c : Char) : Char :=
  if 65 ≤ c.toNat && c.toNat ≤ 90 then Char.ofNat (c.toNat + 32) else c

/-- `s.toLowerCase()` as used by the email comparisons. -/
def jsToLower (s : String) : String := String.mk (s.toList.map jsLowerChar)

/-- `Math.max(...ids) + 1` when `users.length > 0`, else `1` — the id
assignment expression of `POST /api/register` (part_000 line 147). -/
def nextUserId (users : List User) : Int :=
  match users.map (fun u => u.id) with
  | [] => 1
  | x :: xs => xs.foldl max x + 1

/-- Mutate the first element satisfying `p` (JS `find` + in-place mutation). -/
def setFirst (p : α → Bool) (f : α → α) : List α → List α
  | [] => []
  | x :: xs => if p x then f x :: xs else x :: setFirst p f xs

/-- Body of `POST /api/register`: `{ name, email, password }`. -/
structure RegisterBody where
  name : Option String
  email : Option String
  password : Option String
deriving DecidableEq, Repr

/-- Outcome of `POST /api/register`: HTTP status, the users store after the
call, and the stored new user (the response is this user sans password). -/
structure RegisterResult where
  status : Nat
  users : List User
  newUser : Option User
deriving DecidableEq, Repr

/-- `POST /api/register` of the file-backed server (part_000 lines 135-164):
400 when a field is missing/empty, 409 when some stored email matches
case-insensitively, otherwise append a user with id `nextUserId`, one
progress record `{id, progress: 0}` per stored course, `profilePicture:
null`, and rewrite the users file. -/
def fileRegister (users : List User) (courses : List Course)
    (body : RegisterBody) : RegisterResult :=
  if strFalsy body.name || strFalsy body.email || strFalsy body.password then
    ⟨400, users, none⟩
  else if users.any
      (fun u => jsToLower u.email == jsToLower (body.email.getD "")) then
    ⟨409, users, none⟩
  else
    let nu : User :=
      ⟨nextUserId users, body.name.getD "", body.email.getD "",
        body.password.getD "", courses.map (fun c => ⟨c.id, 0⟩), none⟩
    ⟨200, users ++ [nu], some nu⟩

/-- Body of `POST /api/login`: `{ email, password }`. -/
structure LoginBody where
  email : Option String
  password : Option String
deriving DecidableEq, Repr

/-- Outcome of `POST /api/login`: 400, 401, or 200 with the found user
(the response is the user sans password). -/
inductive LoginOutcome where
  | badRequest
  | unauthorized
  | ok (user : User)
deriving DecidableEq, Repr

/-- `POST /api/login` of the file-backed server (part_000 lines 166-182):
400 on missing/empty field, otherwise `users.find` with case-insensitive
email equality and exact password equality; no hit means 401. -/
def fileLogin (users : List User) (body : LoginBody) : LoginOutcome :=
  if strFalsy body.email || strFalsy body.password then .badRequest
  else
    match users.find? (fun u =>
        jsToLower u.email == jsToLower (body.email.getD "")
          && u.password == (body.password.getD "")) with
    | none => .unauthorized
    | some u => .ok u

/-- Body of `PUT /api/user/:id/course/:id/progress`.  The `progress` field is
`none` when absent or not a JSON number (`typeof progress !== 'number'`). -/
structure ProgressBody where
  progress : Option Int
deriving DecidableEq, Repr

/-- Outcome of the progress update: status, users store after the call, and
whether `writeUsers` was invoked. -/
structure UpdateResult where
  status : Nat
  users : List User
  wrote : Bool
deriving DecidableEq, Repr

/-- `PUT /api/user/:id/course/:id/progress` (part_000 lines 196-221):
400 when `progress` is not a number or out of `[0,100]`; 404 when no user has
the path id or that user has no record with the course id; otherwise set the
record's progress and rewrite the users file. -/
def updateProgress (users : List User) (userId courseId : Int)
    (body : ProgressBody) : UpdateResult :=
  match body.progress with
  | none => ⟨400, users, false⟩
  | some p =>
    if p < 0 || p > 100 then ⟨400, users, false⟩
    else
      match users.find? (fun u => u.id == userId) with
      | none => ⟨404, users, false⟩
      | some u =>
        match u.courses.find? (fun c => c.id == courseId) with
        | none => ⟨404, users, false⟩
        | some _ =>
          let updRec := fun (c : ProgressRecord) => { c with progress := p }
          let updUser := fun (v : User) =>
            { v with courses := setFirst (fun c => c.id == courseId) updRec v.courses }
          let users' := setFirst (fun v => v.id == userId) updUser users
          ⟨200, users', true⟩

/-- `Math.max(...ids) + 1` when `courses.length > 0`, else `1`
(part_000 line 253). -/
def nextCourseId (courses : List Course) : Int :=
  match courses.map (fun c => c.id) with
  | [] => 1
  | x :: xs => xs.foldl max x + 1

/-- Body of `POST /api/admin/courses`: `{ title, description, content }`
with `description` and `content` defaulting to the empty string. -/
structure NewCourseBody where
  title : Option String
  description : Option String
  content : Option String
deriving DecidableEq, Repr

/-- Outcome of `POST /api/admin/courses`: status, both stores after the
call, and the created course (the response body). -/
structure AddCourseResult where
  status : Nat
  courses : List Course
  users : List User
  newCourse : Option Course
deriving DecidableEq, Repr

/-- `POST /api/admin/courses` of the file-backed server (part_000 lines
245-267): 400 when the title is missing/empty; otherwise append the course
with id `nextCourseId`, rewrite the courses file, then push `{id, progress: 0}`
onto every user that does not already have a record with that id
(`addCourseUser` is the `users.forEach` body), and rewrite the users file.
The handler never sets a status on success, so Node's default 200 is
returned. -/
def addCourseUser (nid : Int) (u : User) : User :=
  if u.courses.any (fun c => c.id == nid) then u
  else { u with courses := u.courses ++ [⟨nid, 0⟩] }

def addCourse (courses : List Course) (users : List User)
    (body : NewCourseBody) : AddCourseResult :=
  if strFalsy body.title then ⟨400, courses, users, none⟩
  else
    let nc : Course :=
      ⟨nextCourseId courses, body.title.getD "",
        body.description.getD "", body.content.getD ""⟩
    ⟨200, courses ++ [nc], users.map (addCourseUser nc.id), some nc⟩

/-- Body of `PUT/PATCH /api/admin/courses/:id`.  An `id` field may be sent
by the client; the handler never reads it. -/
structure UpdateCourseBody where
  id : Option Int
  title : Option String
  description : Option String
  content : Option String
deriving DecidableEq, Repr

/-- Outcome of the file-backed course update: status, courses store after
the call, and the returned course. -/
structure CourseUpdResult where
  status : Nat
  courses : List Course
  returned : Option Course
deriving DecidableEq, Repr

/-- `PUT/PATCH /api/admin/courses/:id` of the file-backed server (part_000
lines 269-287): 404 when no course has the path id; otherwise overwrite
exactly the fields present in the body (`!== undefined` tests), store and
return the updated course. -/
def updateCourse (courses : List Course) (courseId : Int)
    (body : UpdateCourseBody) : CourseUpdResult :=
  match courses.find? (fun c => c.id == courseId) with
  | none => ⟨404, courses, none⟩
  | some c =>
    let c' : Course :=
      { c with
        title := body.title.getD c.title,
        description := body.description.getD c.description,
        content := body.content.getD c.content }
    ⟨200, setFirst (fun d => d.id == courseId) (fun _ => c') courses, some c'⟩

/-! ### Database-backed variant (`src/server_pg.js`)

The `users` table rows are `{id, email, password_hash}` (the `created_at`
column is never read by a handler).  `hashPassword` is SHA-256 from Node's
`crypto`; it is an external primitive, so the embedding is parameterized by
an arbitrary function `hash : String → String` and every theorem quantifies
over it.  The `SERIAL` id produced by an insert is passed in as `nextId`. -/

/-- A row of the `users` table of the database variant. -/
structure DbUser where
  id : Int
  email : String
  passwordHash : String
deriving DecidableEq, Repr

/-- Outcome of `POST /auth/register`: status, the users table after the
call, and the inserted row (returned as `{id, email}`). -/
structure DbRegisterResult where
  status : Nat
  users : List DbUser
  newUser : Option DbUser
deriving DecidableEq, Repr

/-- `POST /auth/register` of the database variant (server_pg.js lines
71-93): 400 on missing/empty field; 409 when `SELECT id FROM users WHERE
email = $1` — an exact, case-sensitive comparison — finds a row; otherwise
insert `(email, hash password)` and answer 201. -/
def dbRegister (hash : String → String) (users : List DbUser) (nextId : Int)
    (body : LoginBody) : DbRegisterResult :=
  if strFalsy body.email || strFalsy body.password then ⟨400, users, none⟩
  else if users.any (fun u => u.email == body.email.getD "") then
    ⟨409, users, none⟩
  else
    let nu : DbUser := ⟨nextId, body.email.getD "", hash (body.password.getD "")⟩
    ⟨201, users ++ [nu], some nu⟩

/-- Outcome of `POST /auth/login`: 400, 401, or 200 with `{token, userId}`;
the token is opaque random hex, so only the user id is recorded. -/
inductive DbLoginOutcome where
  | badRequest
  | unauthorized
  | ok (userId : Int)
deriving DecidableEq, Repr

/-- `POST /auth/login` of the database variant (server_pg.js lines 96-119):
400 on missing/empty field; `SELECT id, password_hash FROM users WHERE
email = $1` (exact equality, `email` is UNIQUE so the first row suffices);
no row or a hash mismatch is 401, otherwise a token is minted for the id. -/
def dbLogin (hash : String → String) (users : List DbUser)
    (body : LoginBody) : DbLoginOutcome :=
  if strFalsy body.email || strFalsy body.password then .badRequest
  else
    match users.find? (fun u => u.email == body.email.getD "") with
    | none => .unauthorized
    | some u =>
      if u.passwordHash == hash (body.password.getD "") then .ok u.id
      else .unauthorized

/-- A row of the `courses` table: `description`, `content` and `image` are
nullable `TEXT` columns. -/
structure DbCourse where
  id : Int
  title : String
  description : Option String
  content : Option String
  image : Option String
deriving DecidableEq, Repr

/-- JS `x || null` applied to a destructured body field: `null` when the
field is absent or an empty string. -/
def orNull : Option String → Option String
  | none => none
  | some s => if s = "" then none else some s

/-- Body of the database-variant course update: `{title, description,
content, image}` are read; an `id` field may be sent but is never read. -/
structure DbCourseBody where
  id : Option Int
  title : Option String
  description : Option String
  content : Option String
  image : Option String
deriving DecidableEq, Repr

/-- Outcome of `PUT /api/admin/courses/:id` (database variant). -/
structure DbCourseUpdResult where
  status : Nat
  courses : List DbCourse
  returned : Option DbCourse
deriving DecidableEq, Repr

/-- `PUT /api/admin/courses/:id` of the database variant (server_pg.js lines
254-279): 400 when the title is missing/empty, otherwise
`UPDATE courses SET title = $1, description = $2, content = $3, image = $4
WHERE id = $5 RETURNING *`; no returned row means 404.  `id` is a primary
key, so the returned row is the unique updated one.  `dbApplyCourse` is the
SET clause applied to one row. -/
def dbApplyCourse (body : DbCourseBody) (c : DbCourse) : DbCourse :=
  { c with
    title := body.title.getD "",
    description := orNull body.description,
    content := orNull body.content,
    image := orNull body.image }

def dbUpdateCourse (courses : List DbCourse) (courseId : Int)
    (body : DbCourseBody) : DbCourseUpdResult :=
  if strFalsy body.title then ⟨400, courses, none⟩
  else if courses.any (fun c => c.id == courseId) then
    let courses' := courses.map
      (fun c => if c.id == courseId then dbApplyCourse body c else c)
    ⟨200, courses', courses'.find? (fun c => c.id == courseId)⟩
  else ⟨404, courses, none⟩

/-! ### File reads and request-body parsing

`JSON.parse` is a JavaScript builtin, so the embedding is parameterized by
an arbitrary partial parse function `jparse : String → Option Json`
(`none` = `JSON.parse` throws); theorems quantify over it.  A file on disk
is `Option String` (`none` = absent, so `fs.readFileSync` throws). -/

/-- A JSON value (numbers restricted to the integers this app stores). -/
inductive Json where
  | null
  | bool (b : Bool)
  | num (n : Int)
  | str (s : String)
  | arr (xs : List Json)
  | obj (kvs : List (String × Json))

/-- The error thrown by `fs.readFileSync` on an absent file. -/
inductive FsError where
  | enoent
deriving DecidableEq, Repr

/-- `readUsers` (part_000 lines 44-51).  `fs.readFileSync` is OUTSIDE the
`try` block: an absent users file makes the read throw; only a parse
failure is caught and turned into the empty array. -/
def readUsers (jparse : String → Option Json) (file : Option String) :
    Except FsError Json :=
  match file with
  | none => .error .enoent
  | some raw =>
    match jparse raw with
    | some v => .ok v
    | none => .ok (Json.arr [])

/-- `readCourses` (part_000 lines 58-65).  Here `fs.readFileSync` is INSIDE
the `try` block: both an absent file and a parse failure yield `[]`. -/
def readCourses (jparse : String → Option Json) (file : Option String) :
    Except FsError Json :=
  match file with
  | none => .ok (Json.arr [])
  | some raw =>
    match jparse raw with
    | some v => .ok v
    | none => .ok (Json.arr [])

/-- `parseRequestBody` (part_000 lines 107-125): once the byte stream ends,
`body ? JSON.parse(body) : {}` inside `try`, with the catch resolving `{}`;
an empty or unparsable body resolves to the empty object. -/
def parseRequestBody (jparse : String → Option Json) (body : String) : Json :=
  if body = "" then Json.obj []
  else
    match jparse body with
    | some v => v
    | none => Json.obj []

/-- Field access `body.k` on a parsed JSON body: `undefined` (`none`) unless
the body is an object with the key. -/
def jsonGet (j : Json) (k : String) : Option Json :=
  match j with
  | .obj kvs => (kvs.find? (fun kv => kv.1 == k)).map (fun kv => kv.2)
  | _ => none

/-! ### Profile-picture upload (`POST /api/user/:id/profile-picture`) -/

/-- Strip a literal character sequence from the front of a list, JS regex
literal matching. -/
def stripLit : List Char → List Char → Option (List Char)
  | [], rest => some rest
  | _ :: _, [] => none
  | p :: ps, c :: rest => if c = p then stripLit ps rest else none

/-- Whether a JS regex `.` (no `s` flag) matches the character: anything but
a line terminator. -/
def regexDotChar (c : Char) : Bool :=
  !(c == Char.ofNat 10 || c == Char.ofNat 13
      || c == Char.ofNat 0x2028 || c == Char.ofNat 0x2029)

/-- `imageData.match(/^data:(image\x2f[^;]+);base64,(.+)$/)` (part_000 line
343): on a match, group 1 (the mime type, `image/` plus one or more
non-semicolon characters) and group 2 (the base64 payload, one or more
non-line-terminator characters reaching the end of the string). -/
def matchDataUri (s : String) : Option (String × String) :=
  match stripLit "data:image/".toList s.toList with
  | none => none
  | some rest =>
    let t := rest.takeWhile (fun c => !(c == ';'))
    let after := rest.drop t.length
    if t.isEmpty then none
    else
      match stripLit ";base64,".toList after with
      | none => none
      | some dat =>
        if dat.isEmpty then none
        else if dat.all regexDotChar then
          some ("image/" ++ String.mk t, String.mk dat)
        else none

/-- `mimeType.split('/')[1] || 'png'` (part_000 line 352). -/
def extOfMime (mime : String) : String :=
  match (mime.splitOn "/")[1]? with
  | some e => if e = "" then "png" else e
  | none => "png"

/-- A filesystem side effect performed by the upload handler, in program
order: creating `public/uploads`, writing the decoded image under it, or
rewriting `data/users.json`. -/
inductive FsEffect where
  | mkUploadsDir
  | writeUploadFile (name : String) (bytes : List Nat)
  | writeUsersFile (users : List User)
deriving DecidableEq, Repr

/-- `s.startsWith(pre)`. -/
def jsStartsWith (s pre : String) : Bool := pre.toList.isPrefixOf s.toList

/-- Body of the upload: `{ imageData }`, a string when present. -/
structure PicBody where
  imageData : Option String
deriving DecidableEq, Repr

/-- Outcome of the upload: status, the ordered filesystem effects, and the
users store after the call. -/
structure PicResult where
  status : Nat
  effects : List FsEffect
  users : List User
deriving DecidableEq, Repr

/-- `POST /api/user/:id/profile-picture` (part_000 lines 334-370).
`Buffer.from(-, 'base64')` is an external primitive, passed in as `decode`;
`Date.now()` is passed in as `now`; whether `public/uploads` already exists
is passed in as `uploadsDirExists`.  The handler validates the data URI,
writes the decoded file `user-<id>-<now>.<ext>`, and only THEN reads the
users store and checks that the user exists; an unknown user gets 404 after
the upload file has already been written. -/
def uploadProfilePicture (decode : String → List Nat)
    (uploadsDirExists : Bool) (users : List User) (userId : Int) (now : Nat)
    (body : PicBody) : PicResult :=
  match body.imageData with
  | none => ⟨400, [], users⟩
  | some s =>
    if s = "" then ⟨400, [], users⟩
    else if !(jsStartsWith s "data:image") then ⟨400, [], users⟩
    else
      match matchDataUri s with
      | none => ⟨400, [], users⟩
      | some (mime, b64) =>
        let dirFx := if uploadsDirExists then [] else [FsEffect.mkUploadsDir]
        let fileName :=
          "user-" ++ toString userId ++ "-" ++ toString now ++ "." ++ extOfMime mime
        let fx := dirFx ++ [FsEffect.writeUploadFile fileName (decode b64)]
        match users.find? (fun u => u.id == userId) with
        | none => ⟨404, fx, users⟩
        | some _ =>
          let users' := setFirst (fun u => u.id == userId)
            (fun u => { u with profilePicture := some ("/uploads/" ++ fileName) })
            users
          ⟨200, fx ++ [FsEffect.writeUsersFile users'], users'⟩

/-! ### Shared helper lemmas -/

theorem le_foldl_max_init (xs : List Int) (x : Int) : x ≤ xs.foldl max x := by
  induction xs generalizing x with
  | nil => exact le_refl x
  | cons a l ih => exact le_trans (le_max_left x a) (ih (max x a))

theorem le_foldl_max_mem (xs : List Int) (x y : Int) (h : y ∈ xs) :
    y ≤ xs.foldl max x := by
  induction xs generalizing x with
  | nil => cases h
  | cons a l ih =>
    rcases List.mem_cons.mp h with h | h
    · subst h
      exact le_trans (le_max_right x y) (le_foldl_max_init l (max x y))
    · exact ih (max x a) h

theorem lt_nextUserId (users : List User) (u : User) (h : u ∈ users) :
    u.id < nextUserId users := by
  cases users with
  | nil => cases h
  | cons a l =>
    show u.id < (l.map (fun v => v.id)).foldl max a.id + 1
    have : u.id ≤ (l.map (fun v => v.id)).foldl max a.id := by
      rcases List.mem_cons.mp h with h | h
      · subst h; exact le_foldl_max_init _ _
      · exact le_foldl_max_mem _ _ _ (List.mem_map_of_mem _ h)
    omega

theorem nextUserId_pos (users : List User) (hpos : ∀ u ∈ users, 0 < u.id) :
    0 < nextUserId users := by
  cases users with
  | nil => decide
  | cons a l =>
    show 0 < (l.map (fun v => v.id)).foldl max a.id + 1
    have h1 : 0 < a.id := hpos a (List.mem_cons_self a l)
    have h2 : a.id ≤ (l.map (fun v => v.id)).foldl max a.id :=
      le_foldl_max_init _ _
    omega

theorem map_setFirst (p : α → Bool) (f : α → α) (g : α → β) (l : List α)
    (h : ∀ x, p x = true → g (f x) = g x) :
    (setFirst p f l).map g = l.map g := by
  induction l with
  | nil => rfl
  | cons a l ih =>
    by_cases hp : p a = true
    · simp [setFirst, hp, h a hp]
    · simp [setFirst, hp, ih]

/-! ### Claims -/

/-- C3: for every user id, course id and request body whose `progress`
field is not a number, below 0 or above 100, the progress update answers
400 and the users store is unchanged, with no write performed. -/
theorem progress_range_validation (users : List User) (userId courseId : Int)
    (body : ProgressBody)
    (h : body.progress = none ∨
      ∃ p, body.progress = some p ∧ (p < 0 ∨ 100 < p)) :
    updateProgress users userId courseId body = ⟨400, users, false⟩ := by
  rcases h with h | ⟨p, hp, hrange⟩
  · simp [updateProgress, h]
  · have hc : (decide (p < 0) || decide (p > 100)) = true := by
      rcases hrange with h1 | h1 <;> simp [h1]
    simp [updateProgress, hp, hc]

theorem progress_range_validation_witness :
    updateProgress [⟨1, "A", "a@x.com", "p", [⟨1, 10⟩], none⟩] 1 1 ⟨some 150⟩
      = ⟨400, [⟨1, "A", "a@x.com", "p", [⟨1, 10⟩], none⟩], false⟩ :=
  progress_range_validation _ 1 1 _ (Or.inr ⟨150, rfl, Or.inr (by decide)⟩)

/-- C4: for an in-range numeric progress value, when no stored user has the
path's user id, or the first such user has no progress record with the
path's course id, the progress update answers 404 and performs no write. -/
theorem progress_unknown_pair_404 (users : List User) (userId courseId : Int)
    (p : Int) (hlo : 0 ≤ p) (hhi : p ≤ 100)
    (h : users.find? (fun u => u.id == userId) = none ∨
      ∃ u, users.find? (fun u => u.id == userId) = some u ∧
        u.courses.find? (fun c => c.id == courseId) = none) :
    updateProgress users userId courseId ⟨some p⟩ = ⟨404, users, false⟩ := by
  have hc : (decide (p < 0) || decide (p > 100)) = false := by
    simp only [Bool.or_eq_false_iff, decide_eq_false_iff_not]
    omega
  rcases h with h | ⟨u, hu, hcourse⟩
  · simp [updateProgress, hc, h]
  · simp [updateProgress, hc, hu, hcourse]

theorem progress_unknown_pair_404_witness :
    updateProgress [⟨1, "A", "a@x.com", "p", [⟨1, 10⟩], none⟩] 2 1 ⟨some 50⟩
      = ⟨404, [⟨1, "A", "a@x.com", "p", [⟨1, 10⟩], none⟩], false⟩ :=
  progress_unknown_pair_404 _ 2 1 50 (by decide) (by decide)
    (Or.inl (by decide))

/-- C7 counterexample: `readUsers` on an absent users file does NOT return
the empty array — `fs.readFileSync` sits outside the `try`, so the read
surfaces the filesystem error to the caller, for any parse function. -/
theorem readUsers_absent_file_raises :
    readUsers (fun _ => none) none = Except.error FsError.enoent := rfl

/-- C7 (amended): `readCourses` returns the empty array when its file is
absent or unparsable; `readUsers` returns the empty array when its file is
present but unparsable, but an absent users file makes the read throw. -/
theorem file_read_fallback_amended (jparse : String → Option Json)
    (raw : String) (h : jparse raw = none) :
    readCourses jparse none = Except.ok (Json.arr []) ∧
    readCourses jparse (some raw) = Except.ok (Json.arr []) ∧
    readUsers jparse (some raw) = Except.ok (Json.arr []) ∧
    readUsers jparse none = Except.error FsError.enoent := by
  refine ⟨rfl, ?_, ?_, rfl⟩ <;> simp [readCourses, readUsers, h]

theorem file_read_fallback_amended_witness :
    readCourses (fun _ => none) (some "oops") = Except.ok (Json.arr []) :=
  (file_read_fallback_amended (fun _ => none) "oops" rfl).2.1

/-- C8: an empty or unparsable request body resolves to the empty JSON
object, on which every field access is `undefined` — endpoints see exactly
a request providing no fields. -/
theorem parseRequestBody_malformed_empty_object
    (jparse : String → Option Json) (body : String)
    (h : body = "" ∨ jparse body = none) :
    parseRequestBody jparse body = Json.obj [] ∧
      ∀ k, jsonGet (parseRequestBody jparse body) k = none := by
  have h1 : parseRequestBody jparse body = Json.obj [] := by
    rcases h with h | h
    · simp [parseRequestBody, h]
    · by_cases hb : body = ""
      · simp [parseRequestBody, hb]
      · simp [parseRequestBody, hb, h]
  refine ⟨h1, fun k => ?_⟩
  rw [h1]
  simp [jsonGet]

theorem parseRequestBody_malformed_empty_object_witness :
    parseRequestBody (fun _ => none) "not json" = Json.obj [] :=
  (parseRequestBody_malformed_empty_object (fun _ => none) "not json"
    (Or.inr rfl)).1

/-- C9: a request with a well-formed base64 image data URI but an unknown
user id is answered 404, yet the decoded image file has already been
written to the uploads directory before the user-existence check, and the
users store is never written — the 404 is not atomic w.r.t. the
filesystem. -/
theorem upload_writes_file_before_user_check (decode : String → List Nat)
    (uploadsDirExists : Bool) (users : List User) (userId : Int) (now : Nat)
    (s mime b64 : String)
    (hstart : jsStartsWith s "data:image" = true)
    (hmatch : matchDataUri s = some (mime, b64))
    (huser : users.find? (fun u => u.id == userId) = none) :
    (uploadProfilePicture decode uploadsDirExists users userId now
        ⟨some s⟩).status = 404 ∧
    (∃ name, FsEffect.writeUploadFile name (decode b64) ∈
      (uploadProfilePicture decode uploadsDirExists users userId now
        ⟨some s⟩).effects) ∧
    (uploadProfilePicture decode uploadsDirExists users userId now
        ⟨some s⟩).users = users ∧
    ∀ us, FsEffect.writeUsersFile us ∉
      (uploadProfilePicture decode uploadsDirExists users userId now
        ⟨some s⟩).effects := by
  have hne : s ≠ "" := by
    intro h
    rw [h] at hstart
    exact absurd hstart (by decide)
  have hout : uploadProfilePicture decode uploadsDirExists users userId now
      ⟨some s⟩ =
      ⟨404,
        (if uploadsDirExists then [] else [FsEffect.mkUploadsDir]) ++
          [FsEffect.writeUploadFile
            ("user-" ++ toString userId ++ "-" ++ toString now ++ "."
              ++ extOfMime mime) (decode b64)],
        users⟩ := by
    simp [uploadProfilePicture, hne, hstart, hmatch, huser]
  rw [hout]
  refine ⟨rfl, ⟨"user-" ++ toString userId ++ "-" ++ toString now ++ "."
      ++ extOfMime mime, ?_⟩, rfl, fun us => ?_⟩
  · exact List.mem_append_right _ (List.mem_singleton.mpr rfl)
  · cases uploadsDirExists <;> simp

theorem upload_writes_file_before_user_check_witness :
    (uploadProfilePicture (fun _ => [7]) true [] 3 0
        ⟨some "data:image/png;base64,AAAA"⟩).status = 404 ∧
    (∃ name, FsEffect.writeUploadFile name [7] ∈
      (uploadProfilePicture (fun _ => [7]) true [] 3 0
        ⟨some "data:image/png;base64,AAAA"⟩).effects) ∧
    (uploadProfilePicture (fun _ => [7]) true [] 3 0
        ⟨some "data:image/png;base64,AAAA"⟩).users = [] ∧
    ∀ us, FsEffect.writeUsersFile us ∉
      (uploadProfilePicture (fun _ => [7]) true [] 3 0
        ⟨some "data:image/png;base64,AAAA"⟩).effects :=
  upload_writes_file_before_user_check (fun _ => [7]) true [] 3 0
    "data:image/png;base64,AAAA" "image/png" "AAAA"
    (by decide) (by decide) rfl

/-- C10: updating an existing course never changes its id, in either
variant.  File-backed: the handler answers 200, the returned course carries
the path id, fields absent from the body keep their previous values, the
stored id sequence is unchanged, and a body `id` field is ignored.
Database-backed: the stored id sequence is unchanged, any returned row
carries the path id, and a body `id` field is ignored. -/
theorem course_update_preserves_id (courses : List Course)
    (dbCourses : List DbCourse) (courseId : Int) (body : UpdateCourseBody)
    (dbBody : DbCourseBody) (c : Course)
    (hc : courses.find? (fun d => d.id == courseId) = some c) :
    (updateCourse courses courseId body).status = 200 ∧
    (∃ c', (updateCourse courses courseId body).returned = some c' ∧
      c'.id = courseId ∧
      (body.title = none → c'.title = c.title) ∧
      (body.description = none → c'.description = c.description) ∧
      (body.content = none → c'.content = c.content)) ∧
    ((updateCourse courses courseId body).courses.map (fun d => d.id)
      = courses.map (fun d => d.id)) ∧
    (∀ v, updateCourse courses courseId { body with id := v }
      = updateCourse courses courseId body) ∧
    ((dbUpdateCourse dbCourses courseId dbBody).courses.map (fun d => d.id)
      = dbCourses.map (fun d => d.id)) ∧
    (∀ c', (dbUpdateCourse dbCourses courseId dbBody).returned = some c' →
      c'.id = courseId) ∧
    (∀ v, dbUpdateCourse dbCourses courseId { dbBody with id := v }
      = dbUpdateCourse dbCourses courseId dbBody) := by
  have hcid : c.id = courseId := by
    have := List.find?_some hc
    simpa using this
  have hfile : updateCourse courses courseId body =
      ⟨200,
        setFirst (fun d => d.id == courseId)
          (fun _ => ⟨c.id, body.title.getD c.title,
            body.description.getD c.description,
            body.content.getD c.content⟩) courses,
        some ⟨c.id, body.title.getD c.title,
          body.description.getD c.description,
          body.content.getD c.content⟩⟩ := by
    simp [updateCourse, hc]
  refine ⟨?_, ?_, ?_, fun v => rfl, ?_, ?_, fun v => rfl⟩
  · rw [hfile]
  · rw [hfile]
    refine ⟨_, rfl, hcid, fun h => ?_, fun h => ?_, fun h => ?_⟩ <;> simp [h]
  · rw [hfile]
    refine map_setFirst _ _ _ _ ?_
    intro x hx
    have hx' : x.id = courseId := by simpa using hx
    show c.id = x.id
    rw [hcid, hx']
  · by_cases ht : strFalsy dbBody.title = true
    · simp [dbUpdateCourse, ht]
    · by_cases hany : dbCourses.any (fun d => d.id == courseId) = true
      · have hdb : (dbUpdateCourse dbCourses courseId dbBody).courses =
            dbCourses.map (fun cc =>
              if cc.id == courseId then dbApplyCourse dbBody cc else cc) := by
          simp [dbUpdateCourse, ht, hany]
        rw [hdb, List.map_map]
        refine List.map_congr_left ?_
        intro a _
        simp only [Function.comp_apply]
        split <;> rfl
      · simp [dbUpdateCourse, ht, hany]
  · intro c' hc'
    by_cases ht : strFalsy dbBody.title = true
    · simp [dbUpdateCourse, ht] at hc'
    · by_cases hany : dbCourses.any (fun d => d.id == courseId) = true
      · have hr : (dbUpdateCourse dbCourses courseId dbBody).returned =
            (dbCourses.map (fun cc =>
              if cc.id == courseId then dbApplyCourse dbBody cc else cc)).find?
              (fun d => d.id == courseId) := by
          simp [dbUpdateCourse, ht, hany]
        rw [hr] at hc'
        have := List.find?_some hc'
        simpa using this
      · simp [dbUpdateCourse, ht, hany] at hc'

theorem course_update_preserves_id_witness :
    (updateCourse [⟨1, "T", "d", "c"⟩] 1 ⟨some 99, none, some "nd", none⟩).status
      = 200 :=
  (course_update_preserves_id [⟨1, "T", "d", "c"⟩] [] 1
    ⟨some 99, none, some "nd", none⟩ ⟨some 99, some "T2", none, none, none⟩
    ⟨1, "T", "d", "c"⟩ (by decide)).1

/-- C1 counterexample: with an empty (or unparsable) courses file and a
user that already carries a progress record `{id: 1, progress: 50}`, course
creation succeeds with new course id 1, but the pre-existing user keeps
progress 50 for that id — it does not hold a `{id: 1, progress: 0}` record
after the call. -/
theorem course_creation_counterexample :
    (addCourse [] [⟨1, "n", "e@x", "p", [⟨1, 50⟩], none⟩]
        ⟨some "T", none, none⟩).status = 200 ∧
    (addCourse [] [⟨1, "n", "e@x", "p", [⟨1, 50⟩], none⟩]
        ⟨some "T", none, none⟩).newCourse = some ⟨1, "T", "", ""⟩ ∧
    (addCourse [] [⟨1, "n", "e@x", "p", [⟨1, 50⟩], none⟩]
        ⟨some "T", none, none⟩).users
      = [⟨1, "n", "e@x", "p", [⟨1, 50⟩], none⟩] ∧
    ProgressRecord.mk 1 0 ∉
      ([⟨1, 50⟩] : List ProgressRecord) := by decide

/-- C1 (amended): whenever `POST /api/admin/courses` succeeds, every user
that existed before the call has, after the call, a progress record whose
id is the new course id; that record is `{id, progress: 0}` (appended)
exactly when the user had no record with that id before the call, while a
pre-existing record with that id is left untouched (its progress is not
reset to 0). -/
theorem course_creation_syncs_users_amended (courses : List Course)
    (users : List User) (body : NewCourseBody) (t : String)
    (ht : body.title = some t) (hne : t ≠ "") :
    ∃ nc, (addCourse courses users body).newCourse = some nc ∧
      (addCourse courses users body).status = 200 ∧
      ∀ u ∈ users, ∃ u', u' ∈ (addCourse courses users body).users ∧
        u'.id = u.id ∧
        (∃ pr ∈ u'.courses, pr.id = nc.id) ∧
        ((∀ pr ∈ u.courses, pr.id ≠ nc.id) →
          u'.courses = u.courses ++ [⟨nc.id, 0⟩]) ∧
        ((∃ pr ∈ u.courses, pr.id = nc.id) → u' = u) := by
  have hf : strFalsy (some t) = false := by simp [strFalsy, hne]
  have hout : addCourse courses users body =
      ⟨200,
        courses ++ [⟨nextCourseId courses, t, body.description.getD "",
          body.content.getD ""⟩],
        users.map (addCourseUser (nextCourseId courses)),
        some ⟨nextCourseId courses, t, body.description.getD "",
          body.content.getD ""⟩⟩ := by
    simp [addCourse, hf, ht]
  refine ⟨⟨nextCourseId courses, t, body.description.getD "",
    body.content.getD ""⟩, by rw [hout], by rw [hout], ?_⟩
  intro u hu
  rw [hout]
  refine ⟨addCourseUser (nextCourseId courses) u,
    List.mem_map_of_mem _ hu, ?_, ?_, ?_, ?_⟩
  · by_cases hany : u.courses.any
        (fun c => c.id == nextCourseId courses) = true <;>
      simp [addCourseUser, hany]
  · by_cases hany : u.courses.any
        (fun c => c.id == nextCourseId courses) = true
    · obtain ⟨pr, hpr, hid⟩ := List.any_eq_true.mp hany
      exact ⟨pr, by simp [addCourseUser, hany, hpr], by simpa using hid⟩
    · refine ⟨⟨nextCourseId courses, 0⟩, ?_, rfl⟩
      simp [addCourseUser, hany]
  · intro hnone
    have hany : u.courses.any
        (fun c => c.id == nextCourseId courses) = false := by
      rw [Bool.eq_false_iff]
      intro h
      obtain ⟨pr, hpr, hid⟩ := List.any_eq_true.mp h
      exact hnone pr hpr (by simpa using hid)
    simp [addCourseUser, hany]
  · intro ⟨pr, hpr, hid⟩
    have hany : u.courses.any
        (fun c => c.id == nextCourseId courses) = true :=
      List.any_eq_true.mpr ⟨pr, hpr, by simpa using hid⟩
    simp [addCourseUser, hany]

theorem course_creation_syncs_users_amended_witness :
    (addCourse [] [] ⟨some "T", none, none⟩).status = 200 := by
  obtain ⟨nc, -, h, -⟩ :=
    course_creation_syncs_users_amended [] [] ⟨some "T", none, none⟩ "T"
      rfl (by decide)
  exact h

theorem find?_some_iff_exists (l : List α) (p : α → Bool) :
    (∃ a, l.find? p = some a) ↔ ∃ a ∈ l, p a = true := by
  constructor
  · rintro ⟨a, h⟩
    exact ⟨a, List.mem_of_find?_eq_some h, List.find?_some h⟩
  · rintro ⟨a, ha, hp⟩
    cases hf : l.find? p with
    | some b => exact ⟨b, rfl⟩
    | none => exact absurd hp (by simpa using List.find?_eq_none.mp hf a ha)

/-- C2 counterexample: stored email `a@x.com` and request email `A@X.COM`
are equal after lowercasing, yet (i) the file-backed variant answers 400,
not 409, when the request's name is empty — the 409 is not independent of
the name —, and (ii) the database variant compares emails exactly, answers
201 and inserts a second user. -/
theorem duplicate_email_counterexample :
    jsToLower "A@X.COM" = jsToLower "a@x.com" ∧
    (fileRegister [⟨1, "A", "a@x.com", "p", [], none⟩] []
        ⟨some "", some "A@X.COM", some "q"⟩).status = 400 ∧
    (dbRegister (fun s => String.append "H" s) [⟨1, "a@x.com", "Hp"⟩] 2
        ⟨some "A@X.COM", some "p"⟩).status = 201 ∧
    (dbRegister (fun s => String.append "H" s) [⟨1, "a@x.com", "Hp"⟩] 2
        ⟨some "A@X.COM", some "p"⟩).users
      = [⟨1, "a@x.com", "Hp"⟩, ⟨2, "A@X.COM", "Hp"⟩] := by decide

/-- C2 (amended): in the file-backed variant, for every request whose name,
email and password are non-empty strings, a case-insensitively duplicate
email yields 409 and adds no user, regardless of which non-empty name and
password are sent.  In the database variant the duplicate check is exact:
409 (adding no user) when some stored email equals the request email
character-for-character, and otherwise the insert goes through with 201. -/
theorem duplicate_email_conflict_amended (users : List User)
    (courses : List Course) (dbUsers : List DbUser)
    (hash : String → String) (nextId : Int) (name email password : String)
    (hn : name ≠ "") (he : email ≠ "") (hp : password ≠ "")
    (hdup : ∃ u ∈ users, jsToLower u.email = jsToLower email) :
    fileRegister users courses ⟨some name, some email, some password⟩
      = ⟨409, users, none⟩ ∧
    ((∃ u ∈ dbUsers, u.email = email) →
      dbRegister hash dbUsers nextId ⟨some email, some password⟩
        = ⟨409, dbUsers, none⟩) ∧
    ((∀ u ∈ dbUsers, u.email ≠ email) →
      ∃ nu, dbRegister hash dbUsers nextId ⟨some email, some password⟩
        = ⟨201, dbUsers ++ [nu], some nu⟩ ∧ nu.email = email) := by
  have hfn : strFalsy (some name) = false := by simp [strFalsy, hn]
  have hfe : strFalsy (some email) = false := by simp [strFalsy, he]
  have hfp : strFalsy (some password) = false := by simp [strFalsy, hp]
  refine ⟨?_, ?_, ?_⟩
  · have hany : users.any
        (fun u => jsToLower u.email == jsToLower email) = true := by
      rw [List.any_eq_true]
      obtain ⟨u, hu, h⟩ := hdup
      exact ⟨u, hu, by simp [h]⟩
    simp [fileRegister, hfn, hfe, hfp, hany]
  · rintro ⟨u, hu, h⟩
    have hany : dbUsers.any (fun v => v.email == email) = true :=
      List.any_eq_true.mpr ⟨u, hu, by simp [h]⟩
    simp [dbRegister, hfe, hfp, hany]
  · intro hno
    have hany : dbUsers.any (fun v => v.email == email) = false := by
      rw [Bool.eq_false_iff]
      intro h
      obtain ⟨u, hu, hid⟩ := List.any_eq_true.mp h
      exact hno u hu (by simpa using hid)
    exact ⟨⟨nextId, email, hash password⟩,
      by simp [dbRegister, hfe, hfp, hany], rfl⟩

theorem duplicate_email_conflict_amended_witness :
    fileRegister [⟨1, "A", "a@x.com", "p", [], none⟩] []
        ⟨some "B", some "A@X.COM", some "q"⟩
      = ⟨409, [⟨1, "A", "a@x.com", "p", [], none⟩], none⟩ :=
  (duplicate_email_conflict_amended [⟨1, "A", "a@x.com", "p", [], none⟩]
    [] [] (fun s => s) 1 "B" "A@X.COM" "q" (by decide) (by decide)
    (by decide) ⟨⟨1, "A", "a@x.com", "p", [], none⟩, by decide, by decide⟩).1

/-- C5 counterexample: the database variant's login looks the user up with
`WHERE email = $1`, an exact comparison.  With stored email `a@x.com`,
stored hash `hash("p")` and request `(A@X.COM, "p")` the emails match
case-insensitively and the password hash matches exactly, yet the login
answers 401 instead of succeeding. -/
theorem db_login_case_sensitivity_counterexample :
    jsToLower "A@X.COM" = jsToLower "a@x.com" ∧
    (fun s => String.append "H" s) "p" = "Hp" ∧
    dbLogin (fun s => String.append "H" s) [⟨1, "a@x.com", "Hp"⟩]
      ⟨some "A@X.COM", some "p"⟩ = DbLoginOutcome.unauthorized := by decide

/-- C5 (amended): for non-empty email and password, the file-backed login
succeeds (200 with the user sans password) iff some stored user's email
equals the request email case-insensitively AND its password equals the
request password exactly, and any other combination yields 401.  The
database variant instead matches the email EXACTLY (case-sensitively):
with unique stored emails, it succeeds iff some stored user's email equals
the request email character-for-character and its password hash equals the
hash of the request password; any other combination yields 401. -/
theorem login_iff_amended (users : List User) (dbUsers : List DbUser)
    (hash : String → String) (email password : String)
    (he : email ≠ "") (hp : password ≠ "")
    (huniq : ∀ u ∈ dbUsers, ∀ v ∈ dbUsers, u.email = v.email → u = v) :
    ((∃ u, fileLogin users ⟨some email, some password⟩ = .ok u) ↔
      ∃ u ∈ users, jsToLower u.email = jsToLower email
        ∧ u.password = password) ∧
    (∀ u, fileLogin users ⟨some email, some password⟩ = .ok u →
      u ∈ users ∧ jsToLower u.email = jsToLower email
        ∧ u.password = password) ∧
    ((∀ u ∈ users, ¬(jsToLower u.email = jsToLower email
        ∧ u.password = password)) →
      fileLogin users ⟨some email, some password⟩ = .unauthorized) ∧
    ((∃ i, dbLogin hash dbUsers ⟨some email, some password⟩ = .ok i) ↔
      ∃ u ∈ dbUsers, u.email = email ∧ u.passwordHash = hash password) ∧
    ((∀ u ∈ dbUsers, ¬(u.email = email ∧ u.passwordHash = hash password)) →
      dbLogin hash dbUsers ⟨some email, some password⟩ = .unauthorized) := by
  have hfe : strFalsy (some email) = false := by simp [strFalsy, he]
  have hfp : strFalsy (some password) = false := by simp [strFalsy, hp]
  have hstep : ∀ u, fileLogin users ⟨some email, some password⟩ = .ok u →
      u ∈ users ∧ jsToLower u.email = jsToLower email
        ∧ u.password = password := by
    intro u hu
    cases hf : users.find? (fun v => jsToLower v.email == jsToLower email
        && v.password == password) with
    | none => simp [fileLogin, hfe, hfp, hf] at hu
    | some v =>
      have hveq : v = u := by simpa [fileLogin, hfe, hfp, hf] using hu
      subst hveq
      have h1 := List.find?_some hf
      have h2 := List.mem_of_find?_eq_some hf
      simp only [Bool.and_eq_true, beq_iff_eq] at h1
      exact ⟨h2, h1.1, h1.2⟩
  refine ⟨?_, hstep, ?_, ?_, ?_⟩
  · constructor
    · rintro ⟨u, hu⟩
      exact ⟨u, hstep u hu⟩
    · rintro ⟨u, hu, h1, h2⟩
      obtain ⟨v, hv⟩ := (find?_some_iff_exists users
        (fun v => jsToLower v.email == jsToLower email
          && v.password == password)).mpr ⟨u, hu, by simp [h1, h2]⟩
      exact ⟨v, by simp [fileLogin, hfe, hfp, hv]⟩
  · intro hno
    have hf : users.find? (fun v => jsToLower v.email == jsToLower email
        && v.password == password) = none := by
      rw [List.find?_eq_none]
      intro v hv hcontra
      simp only [Bool.and_eq_true, beq_iff_eq] at hcontra
      exact hno v hv ⟨hcontra.1, hcontra.2⟩
    simp [fileLogin, hfe, hfp, hf]
  · constructor
    · rintro ⟨i, hi⟩
      cases hf : dbUsers.find? (fun v => v.email == email) with
      | none => simp [dbLogin, hfe, hfp, hf] at hi
      | some v =>
        have h1 : v.email = email := by simpa using List.find?_some hf
        have h2 := List.mem_of_find?_eq_some hf
        by_cases hcmp : v.passwordHash = hash password
        · exact ⟨v, h2, h1, hcmp⟩
        · have : (v.passwordHash == hash password) = false := by
            simpa using hcmp
          simp [dbLogin, hfe, hfp, hf, this] at hi
    · rintro ⟨u, hu, h1, h2⟩
      obtain ⟨v, hv⟩ := (find?_some_iff_exists dbUsers
        (fun v => v.email == email)).mpr ⟨u, hu, by simp [h1]⟩
      have hveq : v = u := by
        have hve : v.email = email := by simpa using List.find?_some hv
        exact huniq v (List.mem_of_find?_eq_some hv) u hu
          (hve.trans h1.symm)
      subst hveq
      refine ⟨v.id, ?_⟩
      have hcmp : (v.passwordHash == hash password) = true := by simp [h2]
      simp [dbLogin, hfe, hfp, hv, hcmp]
  · intro hno
    cases hf : dbUsers.find? (fun v => v.email == email) with
    | none => simp [dbLogin, hfe, hfp, hf]
    | some v =>
      have h1 : v.email = email := by simpa using List.find?_some hf
      have h2 := List.mem_of_find?_eq_some hf
      have hcmp : (v.passwordHash == hash password) = false := by
        have := hno v h2
        rw [beq_eq_false_iff_ne]
        intro hh
        exact this ⟨h1, hh⟩
      simp [dbLogin, hfe, hfp, hf, hcmp]

theorem login_iff_amended_witness :
    ∃ u, fileLogin [⟨1, "A", "a@x.com", "p", [], none⟩]
      ⟨some "A@X.COM", some "p"⟩ = .ok u :=
  (login_iff_amended [⟨1, "A", "a@x.com", "p", [], none⟩] []
    (fun s => s) "A@X.COM" "p" (by decide) (by decide)
    (by intro u hu; cases hu)).1.mpr
    ⟨⟨1, "A", "a@x.com", "p", [], none⟩, by decide, by decide, rfl⟩

/-- A registration request that passes both guards of the register handler:
all three fields are present and non-empty, and no stored email matches the
request email case-insensitively. -/
def validReg (users : List User) (b : RegisterBody) : Bool :=
  !(strFalsy b.name) && !(strFalsy b.email) && !(strFalsy b.password) &&
    !(users.any (fun u => jsToLower u.email == jsToLower (b.email.getD "")))

/-- The user stored by a successful registration. -/
def regUser (users : List User) (courses : List Course)
    (b : RegisterBody) : User :=
  ⟨nextUserId users, b.name.getD "", b.email.getD "", b.password.getD "",
    courses.map (fun c => ⟨c.id, 0⟩), none⟩

theorem fileRegister_success (users : List User) (courses : List Course)
    (b : RegisterBody) (h : validReg users b = true) :
    fileRegister users courses b =
      ⟨200, users ++ [regUser users courses b],
        some (regUser users courses b)⟩ := by
  simp only [validReg, Bool.and_eq_true, Bool.not_eq_true'] at h
  obtain ⟨⟨⟨h1, h2⟩, h3⟩, h4⟩ := h
  simp [fileRegister, regUser, h1, h2, h3, h4]

/-- C6: a successful registration stores the new user under id
`max(existing ids) + 1` (`1` on the empty store); consequently — assuming,
as the data model states, that all pre-existing ids are positive — two
successful registrations in sequence with no interleaved operations assign
strictly increasing, unique, positive integer ids. -/
theorem register_id_assignment (users : List User) (courses : List Course)
    (b1 b2 : RegisterBody) (h1 : validReg users b1 = true)
    (hpos : ∀ u ∈ users, 0 < u.id) :
    ∃ u1, fileRegister users courses b1 = ⟨200, users ++ [u1], some u1⟩ ∧
      u1.id = nextUserId users ∧ 0 < u1.id ∧ (∀ u ∈ users, u.id < u1.id) ∧
      (validReg (users ++ [u1]) b2 = true →
        ∃ u2, fileRegister (users ++ [u1]) courses b2
            = ⟨200, users ++ [u1] ++ [u2], some u2⟩ ∧
          u1.id < u2.id ∧ 0 < u2.id ∧ ∀ u ∈ users ++ [u1], u.id < u2.id) := by
  refine ⟨regUser users courses b1, fileRegister_success users courses b1 h1,
    rfl, nextUserId_pos users hpos, fun u hu => lt_nextUserId users u hu, ?_⟩
  intro h2
  refine ⟨regUser (users ++ [regUser users courses b1]) courses b2,
    fileRegister_success _ courses b2 h2, ?_, ?_, ?_⟩
  · exact lt_nextUserId _ _ (List.mem_append_right users
      (List.mem_singleton.mpr rfl))
  · have := lt_nextUserId (users ++ [regUser users courses b1])
      (regUser users courses b1)
      (List.mem_append_right users (List.mem_singleton.mpr rfl))
    have hp1 := nextUserId_pos users hpos
    have hid : (regUser users courses b1).id = nextUserId users := rfl
    show (0 : Int) < nextUserId (users ++ [regUser users courses b1])
    omega
  · intro u hu
    exact lt_nextUserId _ u hu

theorem register_id_assignment_witness :
    (fileRegister [] [] ⟨some "A", some "a@x.com", some "p"⟩).status
      = 200 := by
  obtain ⟨u1, hr, -, -, -, -⟩ := register_id_assignment [] []
    ⟨some "A", some "a@x.com", some "p"⟩
    ⟨some "B", some "b@x.com", some "p"⟩ (by decide) (by simp)
  rw [hr]

end LearningWebapp
